import Mathlib

/-!
Verification development for the api-front reverse-proxy gateway
(src/proxy/server.go plus its web-admin file).

The Go source is shallowly embedded: pure computations become Lean
functions, the per-request fanout becomes an explicit list of per-host
outcomes, and the `http.ResponseWriter` becomes an event list rendered
to a wire response by an explicit state machine that mirrors Go's
net/http semantics (headers are mutable until the status line is
committed by `WriteHeader` or the first `Write`, which commits status
200; header mutations after commit do not reach the wire).

Components of the repository that are referenced by src/proxy/server.go
but whose own source files are not part of src/ (the Routers routing
table, Api.GetMasterHostName, CallerItem.IsHostIgnore,
Caller.getCallerItemByIp, In_StringSlice) are modelled from the spec;
each such definition carries a doc comment starting with
`Modelled from the spec:`.

Strings are treated as their character lists; Go's byte-based slicing
and length coincide with this for ASCII configuration data.
-/

namespace ApiFront

/-- Go strings.HasSuffix: t is a suffix of s. -/
def goHasSuffix (s t : String) : Bool :=
  t.data.isSuffixOf s.data

/-- Go strings.HasPrefix: t is a leading piece of s. -/
def goHasPrefix (s t : String) : Bool :=
  t.data.isPrefixOf s.data

/-- Go strings.TrimLeft: remove leading characters contained in the cutset
(a character set, not a whole-string pattern). -/
def trimLeftCutset (s cutset : String) : String :=
  ⟨s.data.dropWhile (fun c => cutset.data.contains c)⟩

/-- Go strings.TrimRight: remove trailing characters contained in the cutset
(a character set, not a whole-string pattern). -/
def trimRightCutset (s cutset : String) : String :=
  ⟨((s.data.reverse.dropWhile (fun c => cutset.data.contains c)).reverse)⟩

/-- Go s[n:] on an ASCII string: drop the first n characters. -/
def goDrop (s : String) (n : Nat) : String :=
  ⟨s.data.drop n⟩

/-- Host: one upstream target (src: NewHost(name, url, enable), field Note). -/
structure Host where
  Name : String
  Url : String
  Enable : Bool
  Note : String
deriving DecidableEq

/-- CallerItem: per-source-IP steering rule (src: NewCallerItem(ip), fields
Note, Enable, Pref, Ignore as used by apiCallerSave). -/
structure CallerItem where
  Ip : String
  Note : String
  Enable : Bool
  Pref : List String
  Ignore : List String
deriving DecidableEq

/-- Api definition: the fields of the Go Api struct that the embedded code
reads (Name, Path, Hosts, Caller, TimeoutMs, Enable, Note). The caller
registry is its list of CallerItem entries. -/
structure Api where
  Name : String
  Path : String
  Hosts : List Host
  Caller : List CallerItem
  TimeoutMs : Int
  Enable : Bool
  Note : String
deriving DecidableEq

/-- Modelled from the spec: In_StringSlice (utility used by apiCallerSave,
not under src/) tests exact membership of a name in a string slice
(§4.2: membership is exact). -/
def In_StringSlice (name : String) (names : List String) : Bool :=
  names.contains name

/-- Modelled from the spec: CallerItem.IsHostIgnore (not under src/) is
exact membership in the ignore list (§4.2 isIgnored). -/
def CallerItem.IsHostIgnore (c : CallerItem) (hostName : String) : Bool :=
  c.Ignore.contains hostName

/-- Modelled from the spec: Caller.getCallerItemByIp (not under src/)
returns the item matching the IP, or a default item (no preference,
nothing ignored, enabled) when the IP is unknown (§4.2 resolveCaller). -/
def getCallerItemByIp (items : List CallerItem) (ip : String) : CallerItem :=
  match items.find? (fun it => it.Ip == ip) with
  | some it => it
  | none => { Ip := ip, Note := "", Enable := true, Pref := [], Ignore := [] }

/-- Does the host set contain a host of this name? -/
def hostsHasName (hosts : List Host) (n : String) : Bool :=
  hosts.any (fun h => h.Name == n)

/-- A preference entry is usable as master when it names a host of the API
and is not in the caller ignore list (§4.2 selectMaster). -/
def prefEligible (api : Api) (c : CallerItem) (n : String) : Bool :=
  hostsHasName api.Hosts n && !(c.Ignore.contains n)

/-- First usable entry of the preference list, in order. -/
def findPrefHost (api : Api) (c : CallerItem) : List String → Option String
  | [] => none
  | p :: rest => if prefEligible api c p then some p else findPrefHost api c rest

/-- Modelled from the spec: Api.GetMasterHostName (not under src/) walks the
caller preference list in order and returns the first name present in the
host set and not ignored; otherwise falls back to the first host in the
defined order (§4.2 selectMaster). An empty host set yields the empty
name (no host can match it, so no unit ever sees itself as master that
could reach the network). -/
def Api.GetMasterHostName (api : Api) (c : CallerItem) : String :=
  match findPrefHost api c c.Pref with
  | some n => n
  | none =>
    match api.Hosts with
    | [] => ""
    | h :: _ => h.Name

/-- Router entry (src field spelling Hander). The handler bound for an API
is the fanout closure over the Api snapshot passed to newHandler; the
model identifies the closure by that snapshot. -/
structure RouterItem where
  ApiName : String
  BindPath : String
  Hander : Api
deriving DecidableEq

/-- A routing table: bound path → router entry. -/
abbrev Routers := List (String × RouterItem)

/-- Modelled from the spec: Routers.BindRouter (not under src/) registers or
replaces the entry for an exact bound path string (§4.1 bind). -/
def BindRouter (routers : Routers) (path : String) (item : RouterItem) : Routers :=
  (routers.filter (fun pr => !(pr.1 == path))) ++ [(path, item)]

/-- Modelled from the spec: Routers.GetRouterByReqPath (not under src/)
returns the entry among those whose bound path is a leading piece of the
request path that has the longest bound path (§4.1 resolve, longest
matching bound path wins); none when nothing matches. -/
def GetRouterByReqPath (routers : Routers) (reqPath : String) : Option RouterItem :=
  (((routers : List (String × RouterItem)).filter
      (fun pr => goHasPrefix reqPath pr.1)).argmax
    (fun pr => pr.1.data.length)).map (fun pr => pr.2)

/-- Where ServeHTTP sends a request: to a bound router, or falling through
to the web admin UI (src ServeHTTP). -/
inductive Served where
  | routed (r : RouterItem)
  | webAdmin
deriving DecidableEq

/-- src ServeHTTP: dispatch by path, falling through to the admin UI when
no router matches. -/
def ServeHTTP (routers : Routers) (reqPath : String) : Served :=
  match GetRouterByReqPath routers reqPath with
  | some r => Served.routed r
  | none => Served.webAdmin

/-- Result of one upstream HTTP call (httpClient.Do): a transport error with
its text, or a response with status, headers and body. -/
inductive UpstreamResult where
  | err (msg : String)
  | ok (status : Nat) (headers : List (String × String)) (body : String)
deriving DecidableEq

/-- One operation the handler performs on the http.ResponseWriter. -/
inductive RwEvent where
  | setHeader (k v : String)
  | addHeader (k v : String)
  | writeHeader (code : Nat)
  | write (data : String)
deriving DecidableEq

/-- State of the response writer: the mutable header map (pending), the
committed status if WriteHeader or the first Write has run, the header
snapshot taken at commit time (what goes on the wire), and the body so
far. Mirrors net/http: headers mutate freely until commit; the first
Write commits status 200; later header mutations and WriteHeader calls
do not change what was sent. -/
structure RwState where
  pending : List (String × String)
  status : Option Nat
  sent : List (String × String)
  body : String
deriving DecidableEq

/-- Header().Set: replace every value for the key, keep the rest. -/
def headerSet (hs : List (String × String)) (k v : String) :
    List (String × String) :=
  (hs.filter (fun kv => !(kv.1 == k))) ++ [(k, v)]

/-- One ResponseWriter operation applied to the writer state. -/
def stepRw (s : RwState) (e : RwEvent) : RwState :=
  match e with
  | RwEvent.setHeader k v =>
    match s.status with
    | some _ => s
    | none => { s with pending := headerSet s.pending k v }
  | RwEvent.addHeader k v =>
    match s.status with
    | some _ => s
    | none => { s with pending := s.pending ++ [(k, v)] }
  | RwEvent.writeHeader c =>
    match s.status with
    | some _ => s
    | none => { s with status := some c, sent := s.pending }
  | RwEvent.write d =>
    match s.status with
    | some _ => { s with body := s.body ++ d }
    | none => { s with status := some 200, sent := s.pending, body := s.body ++ d }

/-- The writer state reached from a fresh ResponseWriter. -/
def rwInit : RwState := { pending := [], status := none, sent := [], body := "" }

/-- The writer state after one or more sets of the constant Server header
on a fresh writer — the only states a run of non-master units can leave
before the master commits. -/
def rwSrv : RwState :=
  { pending := [("Server", "api-proxy")], status := none, sent := [], body := "" }

/-- Replay a list of writer operations. -/
def renderEvents (es : List RwEvent) : RwState :=
  es.foldl stepRw rwInit

/-- What the client receives on the wire. -/
structure WireResponse where
  status : Nat
  headers : List (String × String)
  body : String
deriving DecidableEq

/-- Wire response at handler return: if nothing committed a status, net/http
sends 200 with the current header map. -/
def wireOf (s : RwState) : WireResponse :=
  match s.status with
  | some c => { status := c, headers := s.sent, body := s.body }
  | none => { status := 200, headers := s.pending, body := s.body }

/-- Upstream URL construction (src newHandler, host goroutine): host URL
joined with the relative path, query string appended when non-empty. -/
def buildUrl (hostUrl relPath rawQuery : String) : String :=
  let u :=
    if goHasSuffix hostUrl "/" then hostUrl ++ trimLeftCutset relPath "/"
    else hostUrl ++ relPath
  if !(rawQuery == "") then u ++ "?" ++ rawQuery else u

/-- Outcome of one per-host unit of work: its diagnostics entry (isMaster,
ignored flag, resolved URL, transport-error line) and the ResponseWriter
operations it performed. urlUsed is some exactly when a network call was
issued. -/
structure HostOutcome where
  hostName : String
  isMaster : Bool
  ignored : Bool
  urlUsed : Option String
  errLog : Option String
  events : List RwEvent
deriving DecidableEq

/-- One per-host unit of work (src newHandler, the goroutine body):
classify master by name, return early recording ignore, otherwise build
the upstream URL, call it, set the fixed Server header, and only when
master write the error response (WriteHeader 502, then a Set of api-url
that net/http ignores because the status is committed, then the error
body) or relay the response (Add all upstream headers, Set api-url,
stream the body — note the Go code never reads resp.StatusCode and never
calls WriteHeader on this path). -/
def hostUnit (host : Host) (masterHost : String) (caller : CallerItem)
    (relPath rawQuery : String) (net : String → UpstreamResult) : HostOutcome :=
  let isMaster := masterHost == host.Name
  if caller.IsHostIgnore host.Name then
    { hostName := host.Name, isMaster := isMaster, ignored := true,
      urlUsed := none, errLog := none, events := [] }
  else
    let urlNew := buildUrl host.Url relPath rawQuery
    match net urlNew with
    | UpstreamResult.err e =>
      { hostName := host.Name, isMaster := isMaster, ignored := false,
        urlUsed := some urlNew,
        errLog := some ("fetch " ++ urlNew ++ " " ++ e),
        events :=
          [RwEvent.setHeader "Server" "api-proxy"] ++
          (if isMaster then
            [RwEvent.writeHeader 502,
             RwEvent.setHeader "api-url" urlNew,
             RwEvent.write ("apiServer error:" ++ e)]
          else []) }
    | UpstreamResult.ok _st hs b =>
      { hostName := host.Name, isMaster := isMaster, ignored := false,
        urlUsed := some urlNew, errLog := none,
        events :=
          [RwEvent.setHeader "Server" "api-proxy"] ++
          (if isMaster then
            (hs.map (fun kv => RwEvent.addHeader kv.1 kv.2)) ++
            [RwEvent.setHeader "api-url" urlNew, RwEvent.write b]
          else []) }

/-- The request path relative to the bound path (src: req.URL.Path[len(bindPath):]). -/
def relPathOf (api : Api) (reqPath : String) : String :=
  goDrop reqPath api.Path.data.length

/-- Caller item resolved for the request source IP. -/
def callerOf (api : Api) (ip : String) : CallerItem :=
  getCallerItemByIp api.Caller ip

/-- Master host name resolved for the request. -/
def masterOf (api : Api) (ip : String) : String :=
  api.GetMasterHostName (callerOf api ip)

/-- The upstream URL a given host receives for this request. -/
def hostUrlOf (api : Api) (reqPath rawQuery : String) (h : Host) : String :=
  buildUrl h.Url (relPathOf api reqPath) rawQuery

/-- The fanout handler (src newHandler): master selection is fixed before
dispatch, then one unit of work per host of the API. The concurrent
units are embedded as the list of their outcomes in host order; the
shared ResponseWriter sees their operations serialized in that order
(§5: only the master unit ever writes status or body, so the wire
response does not depend on the interleaving). -/
def handlerOutcomes (api : Api) (reqPath rawQuery ip : String)
    (net : String → UpstreamResult) : List HostOutcome :=
  api.Hosts.map (fun h =>
    hostUnit h (masterOf api ip) (callerOf api ip) (relPathOf api reqPath)
      rawQuery net)

/-- Concatenation of the ResponseWriter operations of a list of outcomes. -/
def eventsConcat (os : List HostOutcome) : List RwEvent :=
  os.foldr (fun o acc => o.events ++ acc) []

/-- All ResponseWriter operations of one request. -/
def handlerEvents (api : Api) (reqPath rawQuery ip : String)
    (net : String → UpstreamResult) : List RwEvent :=
  eventsConcat (handlerOutcomes api reqPath rawQuery ip net)

/-- The upstream URLs actually called during one request. -/
def networkCalls (api : Api) (reqPath rawQuery ip : String)
    (net : String → UpstreamResult) : List String :=
  (handlerOutcomes api reqPath rawQuery ip net).foldr
    (fun o acc =>
      match o.urlUsed with
      | some u => u :: acc
      | none => acc) []

/-- The wire response the client receives for one request. -/
def handlerWire (api : Api) (reqPath rawQuery ip : String)
    (net : String → UpstreamResult) : WireResponse :=
  wireOf (renderEvents (handlerEvents api reqPath rawQuery ip net))

/-- Elapsed time of one per-host unit under a given assignment of upstream
call durations: an ignored host does no network work; otherwise the unit
lasts as long as its upstream call (fork-join latency model of the
goroutine body). -/
def hostUnitLatency (host : Host) (caller : CallerItem)
    (relPath rawQuery : String) (netLat : String → Nat) : Nat :=
  if caller.IsHostIgnore host.Name then 0
  else netLat (buildUrl host.Url relPath rawQuery)

/-- Client-visible handler latency: the handler spawns one unit per host and
joins all of them (wg.Wait) before returning, so it returns when the
slowest unit finishes — the maximum of the unit latencies. -/
def handlerLatency (api : Api) (reqPath rawQuery ip : String)
    (netLat : String → Nat) : Nat :=
  (api.Hosts.map (fun h =>
    hostUnitLatency h (callerOf api ip) (relPathOf api reqPath) rawQuery netLat)).foldr
    max 0

/-- Registry state of one ApiServer: the name → Api mapping and the routing
table (src ApiServer fields Apis and routers). -/
structure ApiServerState where
  Apis : List (String × Api)
  routers : Routers
deriving DecidableEq

/-- Go map assignment Apis[name] = api. -/
def mapInsert (m : List (String × Api)) (k : String) (v : Api) :
    List (String × Api) :=
  (m.filter (fun kv => !(kv.1 == k))) ++ [(k, v)]

/-- src loadApi: read the persisted definition (LoadApiByConf is the
persistence collaborator; its result is the readConf argument). On read
failure return the error with the state untouched. On success store the
Api in the registry map; when it is enabled, bind a fresh handler over
the just-loaded snapshot at its path; when it is not enabled the code
only logs "is not enable,skip" — it performs no routing-table change.
The Bool result is true exactly when the load succeeded. -/
def loadApi (s : ApiServerState) (apiName : String) (readConf : Option Api) :
    ApiServerState × Bool :=
  match readConf with
  | none => (s, false)
  | some api =>
    let s1 : ApiServerState :=
      { Apis := mapInsert s.Apis apiName api, routers := s.routers }
    if api.Enable then
      ({ s1 with
          routers := BindRouter s1.routers api.Path
            { ApiName := apiName, BindPath := api.Path, Hander := api } }, true)
    else
      (s1, true)

/-- src loadAllApis: the API name derived from a configuration file base
name via strings.TrimRight(base, ".json") — a cutset trim, not a suffix
removal. filepath.Base has already stripped the directory. -/
def apiNameOfFile (baseName : String) : String :=
  trimRightCutset baseName ".json"

/-- src loadAllApis: load every persisted definition under its derived
name; the error result of each loadApi is dropped, so one failed load
never stops the loop. -/
def loadAllApis (s : ApiServerState) (fileBaseNames : List String)
    (readConf : String → Option Api) : ApiServerState :=
  fileBaseNames.foldl
    (fun st f => (loadApi st (apiNameOfFile f) (readConf (apiNameOfFile f))).1) s

/-- src apiBaseSave duplicate-host-name loop: tmp starts empty and the loop
only tests membership — the Go code never inserts into tmp, which this
loop mirrors faithfully (tmp is threaded unchanged). Returns true when a
duplicate would be reported. -/
def dupCheckLoop (tmp : List String) : List String → Bool
  | [] => false
  | val :: rest =>
    if tmp.contains val then true else dupCheckLoop tmp rest

/-- src apiBaseSave: the duplicate check over the submitted host names,
started with the freshly created empty tmp map. -/
def hostNameDupCheck (host_name : List String) : Bool :=
  dupCheckLoop [] host_name

/-- src apiCallerSave conflict scan: for each submitted caller item, reject
on the first ignored name that also appears in the preference list,
reporting the item IP and the conflicting name. -/
def checkCallerItems : List CallerItem → Option (String × String)
  | [] => none
  | it :: rest =>
    match it.Ignore.find? (fun n => In_StringSlice n it.Pref) with
    | some n => some (it.Ip, n)
    | none => checkCallerItems rest

/-- src apiCallerSave: build the new caller list from the submitted items;
on a pref/ignore conflict reject before touching the Api, otherwise
replace the caller registry wholesale. -/
def apiCallerSave (api : Api) (items : List CallerItem) :
    Except (String × String) Api :=
  match checkCallerItems items with
  | some c => Except.error c
  | none => Except.ok { api with Caller := items }

/-! Concrete instances used by witnesses and counterexamples. -/

/-- Host for the C1 scenario. -/
def c1Host : Host := { Name := "h1", Url := "http://u/", Enable := true, Note := "" }

/-- API for the C1 scenario: one host, bound at /a. -/
def c1Api : Api :=
  { Name := "a", Path := "/a", Hosts := [c1Host], Caller := [],
    TimeoutMs := 1000, Enable := true, Note := "" }

/-- Upstream behavior for the C1 scenario: every call returns status 404
with one header and the body BODY. -/
def c1Net : String → UpstreamResult :=
  fun _ => UpstreamResult.ok 404 [("X-Test", "y")] "BODY"

/-- First host for the C2 scenario (the default master). -/
def c2Host1 : Host := { Name := "h1", Url := "http://h1/", Enable := true, Note := "" }

/-- Second host for the C2 scenario (a shadow). -/
def c2Host2 : Host := { Name := "h2", Url := "http://h2/", Enable := true, Note := "" }

/-- API for the C2 scenario: two hosts, bound at /b. -/
def c2Api : Api :=
  { Name := "b", Path := "/b", Hosts := [c2Host1, c2Host2], Caller := [],
    TimeoutMs := 1000, Enable := true, Note := "" }

/-- Upstream behavior with both hosts reachable. -/
def c2Net1 : String → UpstreamResult :=
  fun _ => UpstreamResult.ok 200 [("K", "v")] "MASTER"

/-- Upstream behavior with the shadow host unreachable. -/
def c2Net2 : String → UpstreamResult :=
  fun u =>
    if u == "http://h2/x" then UpstreamResult.err "connection refused"
    else UpstreamResult.ok 200 [("K", "v")] "MASTER"

/-- First host for the C3 scenario. -/
def c3Host1 : Host := { Name := "g1", Url := "http://g1/", Enable := true, Note := "" }

/-- Second host for the C3 scenario (the slow shadow). -/
def c3Host2 : Host := { Name := "g2", Url := "http://g2/", Enable := true, Note := "" }

/-- API for the C3 scenario. -/
def c3Api : Api :=
  { Name := "c", Path := "/c", Hosts := [c3Host1, c3Host2], Caller := [],
    TimeoutMs := 1000, Enable := true, Note := "" }

/-- Upstream latencies for the C3 scenario: the shadow is the slowest. -/
def c3Lat : String → Nat :=
  fun u => if u == "http://g2/x" then 500 else 10

/-- Dummy API carried by the C4 router entries. -/
def c4DummyApi : Api :=
  { Name := "d", Path := "/d", Hosts := [], Caller := [],
    TimeoutMs := 1000, Enable := true, Note := "" }

/-- Router entry bound at /a. -/
def c4RA : RouterItem := { ApiName := "ra", BindPath := "/a", Hander := c4DummyApi }

/-- Router entry bound at /a/b. -/
def c4RB : RouterItem := { ApiName := "rb", BindPath := "/a/b", Hander := c4DummyApi }

/-- Routing table with the overlapping bound paths /a and /a/b. -/
def c4Routers : Routers := [("/a", c4RA), ("/a/b", c4RB)]

/-- Hosts h1, h2, h3 for the C5 scenario. -/
def c5Hosts : List Host :=
  [{ Name := "h1", Url := "http://h1/", Enable := true, Note := "" },
   { Name := "h2", Url := "http://h2/", Enable := true, Note := "" },
   { Name := "h3", Url := "http://h3/", Enable := true, Note := "" }]

/-- API for the C5 scenario. -/
def c5Api : Api :=
  { Name := "p", Path := "/p", Hosts := c5Hosts, Caller := [],
    TimeoutMs := 1000, Enable := true, Note := "" }

/-- Caller preferring h2 then h1, ignoring nothing. -/
def c5Caller : CallerItem :=
  { Ip := "1.1.1.1", Note := "", Enable := true, Pref := ["h2", "h1"], Ignore := [] }

/-- The same caller with h2 ignored. -/
def c5CallerIg : CallerItem :=
  { Ip := "1.1.1.1", Note := "", Enable := true, Pref := ["h2", "h1"], Ignore := ["h2"] }

/-- Host of the C6 scenario. -/
def c6Host : Host := { Name := "h1", Url := "http://u/", Enable := true, Note := "" }

/-- Enabled API bound at /a for the C6 scenario. -/
def c6ApiEnabled : Api :=
  { Name := "a", Path := "/a", Hosts := [c6Host], Caller := [],
    TimeoutMs := 1000, Enable := true, Note := "" }

/-- The same API saved with enabled = false. -/
def c6ApiDisabled : Api := { c6ApiEnabled with Enable := false }

/-- Fresh registry. -/
def c6State0 : ApiServerState := { Apis := [], routers := [] }

/-- Registry after loading the enabled API. -/
def c6State1 : ApiServerState := (loadApi c6State0 "a" (some c6ApiEnabled)).1

/-- Registry after reloading the API with enabled = false. -/
def c6State2 : ApiServerState := (loadApi c6State1 "a" (some c6ApiDisabled)).1

/-- API with an empty host set for the C9 scenario. -/
def c9Api : Api :=
  { Name := "e", Path := "/e", Hosts := [], Caller := [],
    TimeoutMs := 1000, Enable := true, Note := "" }

/-- Hosts for the C10 scenario. -/
def c10Hosts : List Host :=
  [{ Name := "i1", Url := "http://i1/", Enable := true, Note := "" },
   { Name := "i2", Url := "http://i2/", Enable := true, Note := "" }]

/-- Caller rule ignoring every host of the C10 API. -/
def c10Caller : CallerItem :=
  { Ip := "5.5.5.5", Note := "", Enable := true, Pref := [], Ignore := ["i1", "i2"] }

/-- API for the C10 scenario, whose hosts are all ignored for the caller. -/
def c10Api : Api :=
  { Name := "f", Path := "/f", Hosts := c10Hosts, Caller := [c10Caller],
    TimeoutMs := 1000, Enable := true, Note := "" }

/-! Theorems. -/

/-- A unit whose host is ignored for the caller records only the ignore
flag: no network call, no writer operation, no error line. -/
theorem hostUnit_ignored (host : Host) (masterHost : String) (caller : CallerItem)
    (relPath rawQuery : String) (net : String → UpstreamResult)
    (hig : caller.IsHostIgnore host.Name = true) :
    hostUnit host masterHost caller relPath rawQuery net =
      { hostName := host.Name, isMaster := masterHost == host.Name,
        ignored := true, urlUsed := none, errLog := none, events := [] } := by
  simp [hostUnit, hig]

/-- Over a host list that is entirely ignored for the caller, the units
perform no writer operation, no network call, and all record the ignore
flag. -/
theorem outcomes_all_ignored (m : String) (c : CallerItem) (rp rq : String)
    (net : String → UpstreamResult) (L : List Host)
    (hig : ∀ h ∈ L, c.IsHostIgnore h.Name = true) :
    eventsConcat (L.map (fun h => hostUnit h m c rp rq net)) = [] ∧
    (L.map (fun h => hostUnit h m c rp rq net)).foldr
      (fun o acc =>
        match o.urlUsed with
        | some u => u :: acc
        | none => acc) [] = [] ∧
    ∀ o ∈ L.map (fun h => hostUnit h m c rp rq net),
      o.ignored = true ∧ o.urlUsed = none := by
  induction L with
  | nil => exact ⟨rfl, rfl, by simp⟩
  | cons a t ih =>
    have ha : c.IsHostIgnore a.Name = true := hig a (List.mem_cons_self a t)
    have ht := ih (fun h hh => hig h (List.mem_cons_of_mem a hh))
    refine ⟨?_, ?_, ?_⟩
    · simp only [List.map_cons, eventsConcat, List.foldr_cons,
        hostUnit_ignored a m c rp rq net ha]
      simpa [eventsConcat] using ht.1
    · simp only [List.map_cons, List.foldr_cons,
        hostUnit_ignored a m c rp rq net ha]
      simpa using ht.2.1
    · intro o ho
      simp only [List.map_cons, List.mem_cons] at ho
      rcases ho with h1 | h1
      · subst h1
        simp [hostUnit_ignored a m c rp rq net ha]
      · exact ht.2.2 _ (by simpa using h1)

/-- C9: an API whose host set is empty produces no per-host unit at all:
no network call, no writer operation, and an empty outcome list — the
handler is a total function, so it cannot crash. -/
theorem c9_empty_hosts_no_activity (api : Api) (reqPath rawQuery ip : String)
    (net : String → UpstreamResult) (hempty : api.Hosts = []) :
    networkCalls api reqPath rawQuery ip net = [] ∧
    handlerEvents api reqPath rawQuery ip net = [] ∧
    handlerOutcomes api reqPath rawQuery ip net = [] := by
  simp [networkCalls, handlerEvents, handlerOutcomes, eventsConcat, hempty]

/-- C9 witness: the concrete empty-host API with an unreachable upstream. -/
theorem c9_empty_hosts_witness :
    networkCalls c9Api "/e/x" "" "1.2.3.4" (fun _ => UpstreamResult.err "down") = [] ∧
    handlerEvents c9Api "/e/x" "" "1.2.3.4" (fun _ => UpstreamResult.err "down") = [] ∧
    handlerOutcomes c9Api "/e/x" "" "1.2.3.4" (fun _ => UpstreamResult.err "down") = [] :=
  c9_empty_hosts_no_activity c9Api "/e/x" "" "1.2.3.4"
    (fun _ => UpstreamResult.err "down") rfl

/-- C10: when every host of the API is ignored for the caller, the engine
issues no upstream call and performs no ResponseWriter operation at all
(not even the Server header, which the code only sets after the ignore
check returns), and every per-host diagnostic records the ignore flag. -/
theorem c10_all_ignored_no_output (api : Api) (reqPath rawQuery ip : String)
    (net : String → UpstreamResult)
    (hig : ∀ h ∈ api.Hosts, (callerOf api ip).IsHostIgnore h.Name = true) :
    networkCalls api reqPath rawQuery ip net = [] ∧
    handlerEvents api reqPath rawQuery ip net = [] ∧
    ∀ o ∈ handlerOutcomes api reqPath rawQuery ip net,
      o.ignored = true ∧ o.urlUsed = none := by
  have h := outcomes_all_ignored (masterOf api ip) (callerOf api ip)
    (relPathOf api reqPath) rawQuery net api.Hosts hig
  exact ⟨h.2.1, h.1, h.2.2⟩

/-- C10 witness: the concrete API whose two hosts are both ignored for the
caller 5.5.5.5. -/
theorem c10_all_ignored_witness :
    networkCalls c10Api "/f/x" "" "5.5.5.5" (fun _ => UpstreamResult.ok 200 [] "X") = [] ∧
    handlerEvents c10Api "/f/x" "" "5.5.5.5" (fun _ => UpstreamResult.ok 200 [] "X") = [] ∧
    ∀ o ∈ handlerOutcomes c10Api "/f/x" "" "5.5.5.5" (fun _ => UpstreamResult.ok 200 [] "X"),
      o.ignored = true ∧ o.urlUsed = none :=
  c10_all_ignored_no_output c10Api "/f/x" "" "5.5.5.5"
    (fun _ => UpstreamResult.ok 200 [] "X") (by decide)

/-- C7: the duplicate-host-name validation of apiBaseSave can never reject:
the Go loop tests membership in the tmp map but never inserts into it,
so the check returns false on every input, including genuine duplicates
such as two hosts both named h1. -/
theorem c7_dup_check_never_rejects :
    ∀ host_name : List String, hostNameDupCheck host_name = false := by
  intro hn
  induction hn with
  | nil => rfl
  | cons v rest ih =>
    simpa [hostNameDupCheck, dupCheckLoop, List.contains] using ih

/-- C8: loadAllApis derives the registry name with strings.TrimRight, which
trims a character set rather than the .json ending: the persisted
definition news.json is loaded under the name new, not news. -/
theorem c8_trimright_cutset_misnames :
    apiNameOfFile "news.json" = "new" ∧ apiNameOfFile "news.json" ≠ "news" := by
  decide

/-- C6: reloading an API whose persisted definition now has enabled = false
replaces the registry entry but leaves the old route binding in place —
loadApi only logs and skips in the not-enabled branch, so a request to
the former path still resolves to the stale handler (bound over the old
enabled snapshot) instead of falling through to the admin UI. -/
theorem c6_disable_reload_binding_persists :
    c6State2.Apis = [("a", c6ApiDisabled)] ∧
    GetRouterByReqPath c6State2.routers "/a/x" =
      some { ApiName := "a", BindPath := "/a", Hander := c6ApiEnabled } ∧
    ServeHTTP c6State2.routers "/a/x" ≠ Served.webAdmin := by
  decide

/-- Every member of a list of naturals is at most its right max-fold. -/
theorem le_foldr_max (l : List Nat) (x : Nat) (hx : x ∈ l) : x ≤ l.foldr max 0 := by
  induction l with
  | nil => cases hx
  | cons a t ih =>
    rcases List.mem_cons.mp hx with rfl | h
    · simp
    · simpa using le_trans (ih h) (le_max_right a (t.foldr max 0))

/-- C3: the handler joins every per-host unit of work before returning
(wg.Wait), so under the fork-join latency model its elapsed time is the
maximum of the unit latencies; in particular it is at least the upstream
latency of every non-ignored host, even a shadow. -/
theorem c3_full_fanout_wait (api : Api) (reqPath rawQuery ip : String)
    (netLat : String → Nat) (h : Host) (hmem : h ∈ api.Hosts)
    (hni : (callerOf api ip).IsHostIgnore h.Name = false) :
    netLat (hostUrlOf api reqPath rawQuery h) ≤
      handlerLatency api reqPath rawQuery ip netLat := by
  have hx : hostUnitLatency h (callerOf api ip) (relPathOf api reqPath) rawQuery netLat
      = netLat (hostUrlOf api reqPath rawQuery h) := by
    simp [hostUnitLatency, hni, hostUrlOf]
  have hmem2 :
      hostUnitLatency h (callerOf api ip) (relPathOf api reqPath) rawQuery netLat ∈
        api.Hosts.map (fun g =>
          hostUnitLatency g (callerOf api ip) (relPathOf api reqPath) rawQuery netLat) :=
    List.mem_map_of_mem _ hmem
  have hle := le_foldr_max _ _ hmem2
  rw [hx] at hle
  exact hle

/-- C3 witness: in the concrete two-host API the shadow g2 is the slowest
participating host (500 versus 10) and the handler waits for it. -/
theorem c3_full_fanout_wait_witness :
    c3Lat (hostUrlOf c3Api "/c/x" "" c3Host2) ≤
      handlerLatency c3Api "/c/x" "" "9.9.9.9" c3Lat :=
  c3_full_fanout_wait c3Api "/c/x" "" "9.9.9.9" c3Lat c3Host2 (by decide) (by decide)

/-- Walking the preference list finds the first usable entry. -/
theorem findPrefHost_first (api : Api) (c : CallerItem) (p : String) (l2 : List String) :
    ∀ l1 : List String, prefEligible api c p = true →
      (∀ q ∈ l1, prefEligible api c q = false) →
      findPrefHost api c (l1 ++ p :: l2) = some p := by
  intro l1
  induction l1 with
  | nil =>
    intro hp _
    simp [findPrefHost, hp]
  | cons a t ih =>
    intro hp hall
    have ha : prefEligible api c a = false := hall a (List.mem_cons_self a t)
    simp only [List.cons_append, findPrefHost, ha, Bool.false_eq_true, if_false]
    exact ih hp (fun q hq => hall q (List.mem_cons_of_mem a hq))

/-- A preference list with no usable entry yields nothing. -/
theorem findPrefHost_none (api : Api) (c : CallerItem) :
    ∀ l : List String, (∀ q ∈ l, prefEligible api c q = false) →
      findPrefHost api c l = none := by
  intro l
  induction l with
  | nil => intro _; rfl
  | cons a t ih =>
    intro hall
    have ha : prefEligible api c a = false := hall a (List.mem_cons_self a t)
    simp only [findPrefHost, ha, Bool.false_eq_true, if_false]
    exact ih (fun q hq => hall q (List.mem_cons_of_mem a hq))

/-- C5: master selection returns the first preference entry that names a
host of the API and is not ignored for the caller; when no preference
entry is usable it falls back to the first host in the defined order.
Selection is a function of (api, caller), so it is deterministic and
yields exactly one master name per request. -/
theorem c5_master_selection (api : Api) (c : CallerItem) :
    (∀ (l1 : List String) (p : String) (l2 : List String),
      c.Pref = l1 ++ p :: l2 → prefEligible api c p = true →
      (∀ q ∈ l1, prefEligible api c q = false) →
      api.GetMasterHostName c = p) ∧
    ((∀ q ∈ c.Pref, prefEligible api c q = false) →
      ∀ (h : Host) (t : List Host), api.Hosts = h :: t →
        api.GetMasterHostName c = h.Name) := by
  constructor
  · intro l1 p l2 hsplit hp hall
    unfold Api.GetMasterHostName
    rw [hsplit, findPrefHost_first api c p l2 l1 hp hall]
  · intro hall h t hhosts
    unfold Api.GetMasterHostName
    rw [findPrefHost_none api c c.Pref hall, hhosts]

/-- C5 witness: hosts h1,h2,h3 and caller preference [h2,h1]: nothing
ignored gives master h2; with h2 ignored the selection falls through to
h1, exactly as the spec example states. -/
theorem c5_master_selection_witness :
    Api.GetMasterHostName c5Api c5Caller = "h2" ∧
    Api.GetMasterHostName c5Api c5CallerIg = "h1" :=
  ⟨(c5_master_selection c5Api c5Caller).1 [] "h2" ["h1"] rfl (by decide) (by decide),
   (c5_master_selection c5Api c5CallerIg).1 ["h2"] "h1" [] rfl (by decide) (by decide)⟩

/-- C4: route resolution (modelled from the spec, the router source not
being under src/) returns an entry bound at a path that is a leading
piece of the request path and whose length is maximal among all bound
matching paths; dispatch then runs that entry, while a miss falls
through to the administrative UI rather than erroring. -/
theorem c4_longest_bound_path_wins (routers : Routers) (reqPath : String) :
    (∀ r : RouterItem, GetRouterByReqPath routers reqPath = some r →
      ServeHTTP routers reqPath = Served.routed r ∧
      ∃ p : String, (p, r) ∈ routers ∧ goHasPrefix reqPath p = true ∧
        ∀ pr ∈ routers, goHasPrefix reqPath pr.1 = true →
          pr.1.data.length ≤ p.data.length) ∧
    (GetRouterByReqPath routers reqPath = none →
      ServeHTTP routers reqPath = Served.webAdmin) := by
  constructor
  · intro r hr
    refine ⟨by simp [ServeHTTP, hr], ?_⟩
    unfold GetRouterByReqPath at hr
    rcases Option.map_eq_some'.mp hr with ⟨pr, hargmax, hpr2⟩
    have hmemf : pr ∈ routers.filter (fun q => goHasPrefix reqPath q.1) :=
      List.argmax_mem (Option.mem_def.mpr hargmax)
    have hmem := List.mem_filter.mp hmemf
    refine ⟨pr.1, ?_, hmem.2, ?_⟩
    · have hpe : (pr.1, r) = pr := by
        rw [← hpr2]
      rw [hpe]
      exact hmem.1
    · intro pr2 hpr2mem hpr2pref
      have hmem2 : pr2 ∈ routers.filter (fun q => goHasPrefix reqPath q.1) :=
        List.mem_filter.mpr ⟨hpr2mem, hpr2pref⟩
      exact @List.le_of_mem_argmax (String × RouterItem) Nat _
        (fun q => q.1.data.length)
        (routers.filter (fun q => goHasPrefix reqPath q.1)) pr2 pr hmem2
        (Option.mem_def.mpr hargmax)
  · intro hnone
    simp [ServeHTTP, hnone]

/-- C4 witness: with /a and /a/b bound, /a/b/c resolves to the /a/b entry
and /a/x resolves to the /a entry, and the /a/b entry is a maximal
matching binding for /a/b/c. -/
theorem c4_longest_bound_path_wins_witness :
    GetRouterByReqPath c4Routers "/a/b/c" = some c4RB ∧
    GetRouterByReqPath c4Routers "/a/x" = some c4RA ∧
    ∃ p : String, (p, c4RB) ∈ c4Routers ∧ goHasPrefix "/a/b/c" p = true ∧
      ∀ pr ∈ c4Routers, goHasPrefix "/a/b/c" pr.1 = true →
        pr.1.data.length ≤ p.data.length :=
  ⟨by decide, by decide,
   ((c4_longest_bound_path_wins c4Routers "/a/b/c").1 c4RB (by decide)).2⟩

/-- Unfolding step for event concatenation. -/
theorem eventsConcat_cons (o : HostOutcome) (os : List HostOutcome) :
    eventsConcat (o :: os) = o.events ++ eventsConcat os := rfl

/-- A unit for a host that is not the master never touches the writer
beyond setting the fixed Server header, whatever its upstream call did. -/
theorem hostUnit_shadow_events (host : Host) (masterHost : String)
    (caller : CallerItem) (relPath rawQuery : String)
    (net : String → UpstreamResult)
    (hsh : (masterHost == host.Name) = false) :
    ∀ e ∈ (hostUnit host masterHost caller relPath rawQuery net).events,
      e = RwEvent.setHeader "Server" "api-proxy" := by
  cases hig : caller.IsHostIgnore host.Name with
  | true => simp [hostUnit, hig]
  | false =>
    cases hnet : net (buildUrl host.Url relPath rawQuery) with
    | err e => simp [hostUnit, hig, hnet, hsh]
    | ok st hs b => simp [hostUnit, hig, hnet, hsh]

/-- The writer operations of a non-master unit do not depend on the
upstream result at all. -/
theorem hostUnit_shadow_events_net (host : Host) (masterHost : String)
    (caller : CallerItem) (relPath rawQuery : String)
    (net1 net2 : String → UpstreamResult)
    (hsh : (masterHost == host.Name) = false) :
    (hostUnit host masterHost caller relPath rawQuery net1).events =
      (hostUnit host masterHost caller relPath rawQuery net2).events := by
  cases hig : caller.IsHostIgnore host.Name with
  | true => simp [hostUnit, hig]
  | false =>
    cases hnet1 : net1 (buildUrl host.Url relPath rawQuery) with
    | err e1 =>
      cases hnet2 : net2 (buildUrl host.Url relPath rawQuery) with
      | err e2 => simp [hostUnit, hig, hnet1, hnet2, hsh]
      | ok st2 hs2 b2 => simp [hostUnit, hig, hnet1, hnet2, hsh]
    | ok st1 hs1 b1 =>
      cases hnet2 : net2 (buildUrl host.Url relPath rawQuery) with
      | err e2 => simp [hostUnit, hig, hnet1, hnet2, hsh]
      | ok st2 hs2 b2 => simp [hostUnit, hig, hnet1, hnet2, hsh]

/-- A unit is a congruence in the upstream result at its own URL. -/
theorem hostUnit_congr (host : Host) (masterHost : String) (caller : CallerItem)
    (relPath rawQuery : String) (net1 net2 : String → UpstreamResult)
    (hnet : net1 (buildUrl host.Url relPath rawQuery) =
      net2 (buildUrl host.Url relPath rawQuery)) :
    hostUnit host masterHost caller relPath rawQuery net1 =
      hostUnit host masterHost caller relPath rawQuery net2 := by
  cases hig : caller.IsHostIgnore host.Name with
  | true => simp [hostUnit, hig]
  | false => simp [hostUnit, hig, hnet]

/-- Writer-operation concatenation only depends on the per-host writer
operations. -/
theorem eventsConcat_map_congr (L : List Host) (u1 u2 : Host → HostOutcome)
    (h : ∀ a ∈ L, (u1 a).events = (u2 a).events) :
    eventsConcat (L.map u1) = eventsConcat (L.map u2) := by
  induction L with
  | nil => rfl
  | cons a t ih =>
    simp only [List.map_cons, eventsConcat_cons]
    rw [h a (List.mem_cons_self a t),
      ih (fun x hx => h x (List.mem_cons_of_mem a hx))]

/-- C2: the client-visible response is a function of the master upstream
result alone. If two upstream behaviors agree at the master URL, the
request performs the same writer operations and the client receives an
identical wire response, whatever any shadow host did; a non-master unit
only ever sets the constant Server header, and a shadow transport error
is recorded in the per-host diagnostics line only. -/
theorem c2_shadow_isolation (api : Api) (reqPath rawQuery ip : String)
    (net1 net2 : String → UpstreamResult)
    (hagree : ∀ h ∈ api.Hosts, (masterOf api ip == h.Name) = true →
      net1 (hostUrlOf api reqPath rawQuery h) = net2 (hostUrlOf api reqPath rawQuery h)) :
    handlerEvents api reqPath rawQuery ip net1 = handlerEvents api reqPath rawQuery ip net2 ∧
    handlerWire api reqPath rawQuery ip net1 = handlerWire api reqPath rawQuery ip net2 ∧
    (∀ h ∈ api.Hosts, (masterOf api ip == h.Name) = false →
      ∀ e ∈ (hostUnit h (masterOf api ip) (callerOf api ip) (relPathOf api reqPath)
          rawQuery net1).events,
        e = RwEvent.setHeader "Server" "api-proxy") ∧
    (∀ h ∈ api.Hosts, (masterOf api ip == h.Name) = false →
      (callerOf api ip).IsHostIgnore h.Name = false →
      ∀ emsg, net1 (hostUrlOf api reqPath rawQuery h) = UpstreamResult.err emsg →
        (hostUnit h (masterOf api ip) (callerOf api ip) (relPathOf api reqPath)
            rawQuery net1).errLog =
          some ("fetch " ++ hostUrlOf api reqPath rawQuery h ++ " " ++ emsg)) := by
  have hev : ∀ h ∈ api.Hosts,
      (hostUnit h (masterOf api ip) (callerOf api ip) (relPathOf api reqPath)
        rawQuery net1).events =
      (hostUnit h (masterOf api ip) (callerOf api ip) (relPathOf api reqPath)
        rawQuery net2).events := by
    intro h hm
    cases hmast : (masterOf api ip == h.Name) with
    | false =>
      exact hostUnit_shadow_events_net h (masterOf api ip) (callerOf api ip)
        (relPathOf api reqPath) rawQuery net1 net2 hmast
    | true =>
      exact congrArg HostOutcome.events
        (hostUnit_congr h (masterOf api ip) (callerOf api ip)
          (relPathOf api reqPath) rawQuery net1 net2 (hagree h hm hmast))
  have he : handlerEvents api reqPath rawQuery ip net1 =
      handlerEvents api reqPath rawQuery ip net2 :=
    eventsConcat_map_congr api.Hosts _ _ hev
  refine ⟨he, ?_, ?_, ?_⟩
  · unfold handlerWire
    rw [he]
  · intro h _ hmast
    exact hostUnit_shadow_events h (masterOf api ip) (callerOf api ip)
      (relPathOf api reqPath) rawQuery net1 hmast
  · intro h _ _ hig emsg hnet
    simp [hostUnit, hig, hostUrlOf] at hnet ⊢
    simp [hnet]

/-- C2 witness: two hosts with h1 the master; taking the shadow h2 from
reachable to unreachable changes neither the writer operations nor the
wire response. -/
theorem c2_shadow_isolation_witness :
    handlerEvents c2Api "/b/x" "" "7.7.7.7" c2Net1 =
      handlerEvents c2Api "/b/x" "" "7.7.7.7" c2Net2 ∧
    handlerWire c2Api "/b/x" "" "7.7.7.7" c2Net1 =
      handlerWire c2Api "/b/x" "" "7.7.7.7" c2Net2 :=
  ⟨(c2_shadow_isolation c2Api "/b/x" "" "7.7.7.7" c2Net1 c2Net2 (by decide)).1,
   (c2_shadow_isolation c2Api "/b/x" "" "7.7.7.7" c2Net1 c2Net2 (by decide)).2.1⟩

/-- Event concatenation distributes over list append. -/
theorem eventsConcat_append (xs ys : List HostOutcome) :
    eventsConcat (xs ++ ys) = eventsConcat xs ++ eventsConcat ys := by
  induction xs with
  | nil => rfl
  | cons a t ih => simp [eventsConcat_cons, ih, List.append_assoc]

/-- Every writer operation of a run of non-master units is the constant
Server-header set. -/
theorem eventsConcat_shadows_serverOnly (L : List Host) (m : String)
    (c : CallerItem) (rp rq : String) (net : String → UpstreamResult)
    (hsh : ∀ h ∈ L, (m == h.Name) = false) :
    ∀ e ∈ eventsConcat (L.map (fun h => hostUnit h m c rp rq net)),
      e = RwEvent.setHeader "Server" "api-proxy" := by
  induction L with
  | nil => simp [eventsConcat]
  | cons a t ih =>
    intro e he
    simp only [List.map_cons, eventsConcat_cons, List.mem_append] at he
    rcases he with he | he
    · exact hostUnit_shadow_events a m c rp rq net
        (hsh a (List.mem_cons_self a t)) e he
    · exact ih (fun x hx => hsh x (List.mem_cons_of_mem a hx)) e he

/-- Folding only constant Server-header sets keeps the writer in one of
the two uncommitted states. -/
theorem foldl_serverOnly (es : List RwEvent)
    (hso : ∀ e ∈ es, e = RwEvent.setHeader "Server" "api-proxy") :
    ∀ s, (s = rwInit ∨ s = rwSrv) →
      (es.foldl stepRw s = rwInit ∨ es.foldl stepRw s = rwSrv) := by
  induction es with
  | nil => intro s hs; simpa using hs
  | cons e t ih =>
    intro s hs
    have he : e = RwEvent.setHeader "Server" "api-proxy" :=
      hso e (List.mem_cons_self e t)
    have hstep : stepRw s e = rwSrv := by
      rcases hs with rfl | rfl <;> rw [he] <;> decide
    rw [List.foldl_cons, hstep]
    exact ih (fun x hx => hso x (List.mem_cons_of_mem e hx)) rwSrv (Or.inr rfl)

/-- After the status is committed, Server-header sets do not change the
writer state. -/
theorem foldl_serverOnly_committed (es : List RwEvent)
    (hso : ∀ e ∈ es, e = RwEvent.setHeader "Server" "api-proxy") :
    ∀ (s : RwState) (c : Nat), s.status = some c → es.foldl stepRw s = s := by
  induction es with
  | nil => intro s c _; rfl
  | cons e t ih =>
    intro s c hc
    have he : e = RwEvent.setHeader "Server" "api-proxy" :=
      hso e (List.mem_cons_self e t)
    have hstep : stepRw s e = s := by
      rw [he]; simp [stepRw, hc]
    rw [List.foldl_cons, hstep]
    exact ih (fun x hx => hso x (List.mem_cons_of_mem e hx)) s c hc

/-- Folding the Add operations of a header list appends it to the pending
header map. -/
theorem foldl_adds (uh : List (String × String)) :
    ∀ s : RwState, s.status = none →
      (uh.map (fun kv => RwEvent.addHeader kv.1 kv.2)).foldl stepRw s =
        { s with pending := s.pending ++ uh } := by
  induction uh with
  | nil => intro s _; simp
  | cons kv t ih =>
    intro s hc
    rw [List.map_cons, List.foldl_cons]
    have hstep : stepRw s (RwEvent.addHeader kv.1 kv.2) =
        { s with pending := s.pending ++ [kv] } := by
      simp [stepRw, hc]
    rw [hstep, ih { s with pending := s.pending ++ [kv] } hc]
    simp

/-- Replaying the master success path from a writer state no shadow has
committed: the fixed Server set collapses both possible starting states,
the upstream headers are added, the api-url header replaces any pending
entry of that name, and the body write commits status 200 with the
header snapshot. -/
theorem foldl_master_ok (uh : List (String × String)) (url b : String)
    (s : RwState) (hs0 : s = rwInit ∨ s = rwSrv) :
    ((RwEvent.setHeader "Server" "api-proxy" ::
      (uh.map (fun kv => RwEvent.addHeader kv.1 kv.2) ++
        [RwEvent.setHeader "api-url" url, RwEvent.write b])).foldl stepRw s) =
    { pending := headerSet (("Server", "api-proxy") :: uh) "api-url" url,
      status := some 200,
      sent := headerSet (("Server", "api-proxy") :: uh) "api-url" url,
      body := b } := by
  have hstep1 : stepRw s (RwEvent.setHeader "Server" "api-proxy") = rwSrv := by
    rcases hs0 with rfl | rfl <;> decide
  rw [List.foldl_cons, hstep1, List.foldl_append, foldl_adds uh rwSrv rfl]
  simp [stepRw, rwSrv, headerSet, String.empty_append]

/-- C1 (amended): when the master upstream call succeeds, the client
receives every upstream response header (the identifying api-url header
replacing any upstream header of that name), the api-url header naming
the upstream URL actually used, and the upstream body verbatim; the
status, however, is the Go default 200 committed by the first body
write — newHandler never reads resp.StatusCode and never calls
WriteHeader on the success path. -/
theorem c1_master_success_response (api : Api) (reqPath rawQuery ip : String)
    (net : String → UpstreamResult) (L1 L2 : List Host) (mh : Host)
    (st : Nat) (uh : List (String × String)) (b : String)
    (hsplit : api.Hosts = L1 ++ mh :: L2)
    (hsh1 : ∀ h ∈ L1, (masterOf api ip == h.Name) = false)
    (hsh2 : ∀ h ∈ L2, (masterOf api ip == h.Name) = false)
    (hm : (masterOf api ip == mh.Name) = true)
    (hni : (callerOf api ip).IsHostIgnore mh.Name = false)
    (hnet : net (hostUrlOf api reqPath rawQuery mh) = UpstreamResult.ok st uh b) :
    (handlerWire api reqPath rawQuery ip net).status = 200 ∧
    (handlerWire api reqPath rawQuery ip net).body = b ∧
    ("api-url", hostUrlOf api reqPath rawQuery mh) ∈
      (handlerWire api reqPath rawQuery ip net).headers ∧
    ∀ kv ∈ uh, ¬(kv.1 = "api-url") →
      kv ∈ (handlerWire api reqPath rawQuery ip net).headers := by
  have hnet2 : net (buildUrl mh.Url (relPathOf api reqPath) rawQuery) =
      UpstreamResult.ok st uh b := hnet
  have hmev : (hostUnit mh (masterOf api ip) (callerOf api ip)
      (relPathOf api reqPath) rawQuery net).events =
      RwEvent.setHeader "Server" "api-proxy" ::
        (uh.map (fun kv => RwEvent.addHeader kv.1 kv.2) ++
          [RwEvent.setHeader "api-url" (hostUrlOf api reqPath rawQuery mh),
           RwEvent.write b]) := by
    simp [hostUnit, hni, hnet2, hm, hostUrlOf]
  have hu : handlerEvents api reqPath rawQuery ip net =
      eventsConcat (L1.map (fun h => hostUnit h (masterOf api ip)
        (callerOf api ip) (relPathOf api reqPath) rawQuery net)) ++
      ((hostUnit mh (masterOf api ip) (callerOf api ip)
        (relPathOf api reqPath) rawQuery net).events ++
       eventsConcat (L2.map (fun h => hostUnit h (masterOf api ip)
        (callerOf api ip) (relPathOf api reqPath) rawQuery net))) := by
    unfold handlerEvents handlerOutcomes
    rw [hsplit, List.map_append, List.map_cons, eventsConcat_append,
      eventsConcat_cons]
  have hrender : renderEvents (handlerEvents api reqPath rawQuery ip net) =
      { pending := headerSet (("Server", "api-proxy") :: uh) "api-url"
          (hostUrlOf api reqPath rawQuery mh),
        status := some 200,
        sent := headerSet (("Server", "api-proxy") :: uh) "api-url"
          (hostUrlOf api reqPath rawQuery mh),
        body := b } := by
    rw [hu]
    unfold renderEvents
    rw [List.foldl_append, hmev, List.foldl_append]
    rcases foldl_serverOnly _
        (eventsConcat_shadows_serverOnly L1 (masterOf api ip) (callerOf api ip)
          (relPathOf api reqPath) rawQuery net hsh1) rwInit (Or.inl rfl)
      with h1 | h1 <;> rw [h1]
    · rw [foldl_master_ok uh (hostUrlOf api reqPath rawQuery mh) b rwInit (Or.inl rfl)]
      exact foldl_serverOnly_committed _
        (eventsConcat_shadows_serverOnly L2 (masterOf api ip) (callerOf api ip)
          (relPathOf api reqPath) rawQuery net hsh2) _ 200 rfl
    · rw [foldl_master_ok uh (hostUrlOf api reqPath rawQuery mh) b rwSrv (Or.inr rfl)]
      exact foldl_serverOnly_committed _
        (eventsConcat_shadows_serverOnly L2 (masterOf api ip) (callerOf api ip)
          (relPathOf api reqPath) rawQuery net hsh2) _ 200 rfl
  have hwire : handlerWire api reqPath rawQuery ip net =
      { status := 200,
        headers := headerSet (("Server", "api-proxy") :: uh) "api-url"
          (hostUrlOf api reqPath rawQuery mh),
        body := b } := by
    unfold handlerWire
    rw [hrender]
    rfl
  rw [hwire]
  refine ⟨rfl, rfl, ?_, ?_⟩
  · exact List.mem_append.mpr (Or.inr (List.mem_singleton.mpr rfl))
  · intro kv hkv hne
    refine List.mem_append.mpr (Or.inl ?_)
    refine List.mem_filter.mpr ⟨List.mem_cons_of_mem _ hkv, ?_⟩
    simp [hne]

/-- C1 counterexample to the claim as stated: the upstream answers with
status 404, yet the wire status the client receives is 200 — the
upstream response status is not carried to the client. -/
theorem c1_status_not_relayed_counterexample :
    (handlerWire c1Api "/a/x" "" "9.9.9.9" c1Net).status = 200 ∧
    c1Net (hostUrlOf c1Api "/a/x" "" c1Host) =
      UpstreamResult.ok 404 [("X-Test", "y")] "BODY" ∧
    (handlerWire c1Api "/a/x" "" "9.9.9.9" c1Net).status ≠ 404 := by
  decide

/-- C1 witness: the single-host API with a 404/one-header/BODY upstream,
instantiating the amended statement. -/
theorem c1_master_success_response_witness :
    (handlerWire c1Api "/a/x" "" "9.9.9.9" c1Net).status = 200 ∧
    (handlerWire c1Api "/a/x" "" "9.9.9.9" c1Net).body = "BODY" ∧
    ("api-url", hostUrlOf c1Api "/a/x" "" c1Host) ∈
      (handlerWire c1Api "/a/x" "" "9.9.9.9" c1Net).headers ∧
    ∀ kv ∈ [(("X-Test" : String), ("y" : String))], ¬(kv.1 = "api-url") →
      kv ∈ (handlerWire c1Api "/a/x" "" "9.9.9.9" c1Net).headers :=
  c1_master_success_response c1Api "/a/x" "" "9.9.9.9" c1Net [] [] c1Host 404
    [("X-Test", "y")] "BODY" rfl (by simp) (by simp) (by decide) (by decide) rfl

end ApiFront
